import Mathlib

/-!
# prom-go-demo: the contention-and-spike simulation engine of `app.go`

A shallow embedding of `app.go`.  Package-level variables become fields of an
explicit `State`; every reading of the clock and every draw of `math/rand` is an
input of the call that makes it; the metric calls and sleeps a function performs
are returned as a list of `Event`s in program order.  A Go string is a list of
bytes, and a call of `WithLabelValues` with a label value that is not valid UTF-8
ends the function by a panic.  A function is embedded as one run; what another
goroutine does to the pool while `acquireDBConnection` waits in its `select` is an
input of that call.
-/

namespace PromGoDemo

/-! ## Time -/

/-- A `time.Duration`: a signed count of nanoseconds held in an int64. -/
abbrev Duration := Int

/-- A `time.Time`, as the number of nanoseconds since the zero `Time`. -/
abbrev Time := Int

def Millisecond : Duration := 1000000

def Second : Duration := 1000 * Millisecond

def Minute : Duration := 60 * Second

/-- The smallest `Duration`, `-1 << 63`. -/
def minDuration : Duration := -(2 ^ 63)

/-- The largest `Duration`, `1<<63 - 1`. -/
def maxDuration : Duration := 2 ^ 63 - 1

/-- The method `t.Sub(u)`: the duration `t - u`, and the largest (smallest) duration
when `t - u` does not fit one. -/
def Sub (t u : Time) : Duration :=
  if t - u > maxDuration then maxDuration
  else if t - u < minDuration then minDuration
  else t - u

/-- The function `time.Since(start)` at a clock reading `clock`: `clock.Sub(start)`. -/
def Since (clock start : Time) : Duration := Sub clock start

/-! ## Strings -/

/-- A Go string: a sequence of bytes, valid UTF-8 or not. -/
abbrev GoString := List (Fin 256)

/-- The UTF-8 encoding of the code point `c`. -/
def utf8EncodeRune (c : Nat) : List (Fin 256) :=
  if c < 0x80 then [Fin.ofNat c]
  else if c < 0x800 then [Fin.ofNat (0xC0 + c / 64), Fin.ofNat (0x80 + c % 64)]
  else if c < 0x10000 then
    [Fin.ofNat (0xE0 + c / 4096), Fin.ofNat (0x80 + c / 64 % 64), Fin.ofNat (0x80 + c % 64)]
  else
    [Fin.ofNat (0xF0 + c / 262144), Fin.ofNat (0x80 + c / 4096 % 64),
     Fin.ofNat (0x80 + c / 64 % 64), Fin.ofNat (0x80 + c % 64)]

/-- The Go string of a string literal of the source: its UTF-8 encoding. -/
def str (s : String) : GoString := (s.data.map (fun c => utf8EncodeRune c.toNat)).flatten

/-- The state of a UTF-8 validation: whether the bytes read so far are well formed, how
many continuation bytes the current sequence still needs, and the range the next one
has to be in. -/
structure Utf8State where
  ok : Bool
  need : Nat
  lo : Nat
  hi : Nat
  deriving DecidableEq, Repr

/-- One byte of a UTF-8 validation, by the table of well-formed byte sequences. -/
def Utf8State.step (st : Utf8State) (b : Fin 256) : Utf8State :=
  let n := b.val
  if st.ok = false then st
  else if st.need = 0 then
    if n < 0x80 then { ok := true, need := 0, lo := 0x80, hi := 0xBF }
    else if 0xC2 ≤ n ∧ n ≤ 0xDF then { ok := true, need := 1, lo := 0x80, hi := 0xBF }
    else if n = 0xE0 then { ok := true, need := 2, lo := 0xA0, hi := 0xBF }
    else if n = 0xED then { ok := true, need := 2, lo := 0x80, hi := 0x9F }
    else if 0xE1 ≤ n ∧ n ≤ 0xEF then { ok := true, need := 2, lo := 0x80, hi := 0xBF }
    else if n = 0xF0 then { ok := true, need := 3, lo := 0x90, hi := 0xBF }
    else if 0xF1 ≤ n ∧ n ≤ 0xF3 then { ok := true, need := 3, lo := 0x80, hi := 0xBF }
    else if n = 0xF4 then { ok := true, need := 3, lo := 0x80, hi := 0x8F }
    else { st with ok := false }
  else if st.lo ≤ n ∧ n ≤ st.hi then { ok := true, need := st.need - 1, lo := 0x80, hi := 0xBF }
  else { st with ok := false }

/-- The function `utf8.ValidString(s)`: whether `s` is a sequence of well-formed UTF-8
byte sequences. -/
def ValidString (s : GoString) : Bool :=
  let st := s.foldl Utf8State.step { ok := true, need := 0, lo := 0x80, hi := 0xBF }
  st.ok && st.need == 0

/-- The method `WithLabelValues(lvs...)` of the metric vectors of `client_golang`, called
in `app.go` with as many values as the vector has labels: it returns (`true`) when
every value is valid UTF-8 and panics (`false`) otherwise. -/
def WithLabelValues (lvs : List GoString) : Bool := lvs.all ValidString

/-! ## Random draws -/

/-- The call `rand.Intn(n)`, a value of `[0, n)`, from the raw output `raw` of the source. -/
def Intn (raw n : Nat) : Nat := raw % n

/-- A float32 of `[0, 1)`, as `rand.Float32()` returns: the number `mant / 2 ^ exp`,
where `mant` is a significand of at most 24 bits. -/
structure Float32 where
  mant : Nat
  exp : Nat
  deriving DecidableEq, Repr

/-- The number a `Float32` stands for. -/
def Float32.toRat (f : Float32) : Rat := (f.mant : Rat) / 2 ^ f.exp

/-- The comparison `f < g` of two float32 values, with the denominators cleared. -/
def Float32.lt (f g : Float32) : Bool :=
  decide (f.mant * 2 ^ g.exp < g.mant * 2 ^ f.exp)

/-- The untyped constant `0.05` converted to float32, the type of the draw it is
compared with: `0x3D4CCCCD`, which is `13421773 / 2 ^ 28`. -/
def float32_0_05 : Float32 := { mant := 13421773, exp := 28 }

/-! ## Package-level constants and variables -/

def maxDBConnections : Nat := 1000

def numCustomers : Nat := 5

def numOperations : Nat := 10

def spikeDuration : Duration := 30 * Second

def spikeInterval : Duration := 5 * Minute

def customers : List GoString :=
  [str "Alpha", str "Beta", str "Gamma", str "Delta", str "Epsilon"]

def operations : List GoString :=
  [str "Create", str "Read", str "Update", str "Delete", str "List", str "Search",
   str "Export", str "Import", str "Analyze", str "Report"]

/-- The mutable package-level variables.  `dbPool` is the number of elements
buffered in the channel `dbPool` (capacity `maxDBConnections`), `dbConnections` the
value of the gauge `app_db_connections`. -/
structure State where
  dbPool : Nat
  lastSpikeTime : Time
  currentSpikeCustomer : GoString
  dbConnections : Int
  deriving DecidableEq, Repr

/-- The state at program start: an empty channel, the zero `Time`, the empty string,
a gauge at zero. -/
def State.init : State :=
  { dbPool := 0, lastSpikeTime := 0, currentSpikeCustomer := [], dbConnections := 0 }

/-- What a function does besides changing `State`, in program order. -/
inductive Event where
  /-- The call `time.Sleep(d)`. -/
  | sleep (d : Duration)
  /-- The call `requests.WithLabelValues(operation, status, customer).Inc()`. -/
  | requestsInc (operation status customer : GoString)
  /-- The call `latency.WithLabelValues(operation, status, customer).Observe(d.Seconds())`. -/
  | latencyObserve (operation status customer : GoString) (d : Duration)
  /-- The call `errors.WithLabelValues(cause, customer, operation).Inc()`. -/
  | errorsInc (cause customer operation : GoString)
  /-- The send `dbPool <- struct{}{}`. -/
  | dbPoolSend
  /-- The receive `<-dbPool`. -/
  | dbPoolRecv
  /-- The call `dbConnections.Inc()`. -/
  | dbConnectionsInc
  /-- The call `dbConnections.Dec()`. -/
  | dbConnectionsDec
  /-- The call `dbConnectionLatency.WithLabelValues(customer).Observe(d.Seconds())`. -/
  | dbConnectionLatencyObserve (customer : GoString) (d : Duration)
  deriving DecidableEq, Repr

/-! ## calculateDBConnectionDelay -/

/-- The inputs of one call of `calculateDBConnectionDelay`: the reading of
`time.Now()` and the raw values behind `rand.Intn(len(customers))`, `rand.Intn(500)`
and `rand.Intn(50)`. -/
structure DelayEnv where
  now : Time
  pick : Nat
  spike : Nat
  base : Nat
  deriving DecidableEq, Repr

/-- The function `calculateDBConnectionDelay(customer)`: the delay returned and
the state left. -/
def calculateDBConnectionDelay (s : State) (customer : GoString) (e : DelayEnv) :
    Duration × State :=
  let now := e.now
  let s1 : State :=
    if Sub now s.lastSpikeTime > spikeInterval then
      { s with
        lastSpikeTime := now
        currentSpikeCustomer :=
          customers.get ⟨Intn e.pick customers.length, Nat.mod_lt _ (by decide)⟩ }
    else s
  let s2 : State :=
    if Sub now s1.lastSpikeTime > spikeDuration then
      { s1 with currentSpikeCustomer := [] }
    else s1
  if Sub now s2.lastSpikeTime < spikeDuration ∧ customer = s2.currentSpikeCustomer then
    ((((Intn e.spike 500 + 1500 : Nat) : Int)) * Millisecond, s2)
  else
    (((Intn e.base 50 : Nat) : Int) * Millisecond, s2)

/-! ## acquireDBConnection, releaseDBConnection -/

/-- The function `releaseDBConnection()`.  The receive on an empty `dbPool` blocks:
the call has no result then. -/
def releaseDBConnection (s : State) : Option (State × List Event) :=
  if 0 < s.dbPool then
    some ({ s with dbPool := s.dbPool - 1, dbConnections := s.dbConnections - 1 },
          [.dbPoolRecv, .dbConnectionsDec])
  else none

/-- The inputs of one call of `acquireDBConnection`: the reading `start`, the inputs
of the delay computation, whether another goroutine runs `releaseDBConnection()` while
this call is blocked in its `select` and before the timer of 50 ms fires, and the clock
read by `time.Since(start)`. -/
structure AcqEnv where
  start : Time
  delay : DelayEnv
  released : Bool
  finish : Time
  deriving DecidableEq, Repr

/-- One run of `acquireDBConnection`: the value returned, none when the call panicked,
the state left and the events of the call. -/
structure AcqRun where
  ret : Option Bool
  state : State
  events : List Event
  deriving DecidableEq, Repr

/-- The function `acquireDBConnection(customer)`.  The send on `dbPool` proceeds at
once when the buffer is not full; on a full buffer the `select` blocks, and the send
proceeds when another goroutine releases a slot before the timer fires, else the case
`<-time.After(50 * time.Millisecond)` is taken.  After the send and `Inc()`, the call
`dbConnectionLatency.WithLabelValues(customer)` panics on a tenant that is not valid
UTF-8. -/
def acquireDBConnection (s : State) (customer : GoString) (e : AcqEnv) : AcqRun :=
  let (delay, s1) := calculateDBConnectionDelay s customer e.delay
  let atSend : Option State :=
    if s1.dbPool < maxDBConnections then some s1
    else if e.released then (releaseDBConnection s1).map (fun r => r.1)
    else none
  match atSend with
  | some s2 =>
    let s3 : State :=
      { s2 with dbPool := s2.dbPool + 1, dbConnections := s2.dbConnections + 1 }
    if WithLabelValues [customer] then
      { ret := some true, state := s3,
        events := [.sleep delay, .dbPoolSend, .dbConnectionsInc,
          .dbConnectionLatencyObserve customer (Since e.finish e.start)] }
    else
      { ret := none, state := s3, events := [.sleep delay, .dbPoolSend, .dbConnectionsInc] }
  | none => { ret := some false, state := s1, events := [.sleep delay] }

/-! ## handleRequest -/

/-- The request headers `handleRequest` reads; `Header.Get` gives `""` for an
absent header. -/
structure Request where
  xOperation : GoString
  xCustomer : GoString
  deriving DecidableEq, Repr

/-- The status and the body written to the `http.ResponseWriter`. -/
structure Response where
  status : Nat
  body : GoString
  deriving DecidableEq, Repr

def StatusOK : Nat := 200

def StatusInternalServerError : Nat := 500

def StatusServiceUnavailable : Nat := 503

/-- The inputs of one call of `handleRequest`: the reading `start`, the inputs of
`acquireDBConnection`, the raw value behind `rand.Intn(50)`, the value of
`rand.Float32()`, and the clock read by `time.Since(start)`. -/
structure ReqEnv where
  start : Time
  acquire : AcqEnv
  processing : Nat
  failure : Float32
  finish : Time
  deriving DecidableEq, Repr

/-- One run of `handleRequest`: whether it ended by a panic (which `net/http` recovers,
dropping the connection), what it had written to the `http.ResponseWriter`, the state
left and the events of the call. -/
structure Run where
  panicked : Bool
  response : Option Response
  state : State
  events : List Event
  deriving DecidableEq, Repr

/-- The function `handleRequest(w, r)`.  A panic inside `acquireDBConnection` comes
before `defer releaseDBConnection()` is reached; a panic after it runs the deferred
call.  No result when the deferred call blocks. -/
def handleRequest (s : State) (r : Request) (e : ReqEnv) : Option Run :=
  let operation : GoString := if r.xOperation = [] then str "unknown" else r.xOperation
  let customer : GoString := if r.xCustomer = [] then str "unknown" else r.xCustomer
  let a := acquireDBConnection s customer e.acquire
  match a.ret with
  | none => some { panicked := true, response := none, state := a.state, events := a.events }
  | some false =>
    if WithLabelValues [str "db_connection_timeout", customer, operation] then
      some { panicked := false,
             response := some { status := StatusServiceUnavailable,
                                body := str "Database Connection Timeout\n" },
             state := a.state,
             events := a.events ++ [.errorsInc (str "db_connection_timeout") customer operation] }
    else
      some { panicked := true, response := none, state := a.state, events := a.events }
  | some true =>
    let ev2 := a.events ++ [.sleep (((Intn e.processing 50 : Nat) : Int) * Millisecond)]
    let record (status : Nat) (resp : Response) (ev : List Event) :
        Bool × Option Response × List Event :=
      if WithLabelValues [operation, str (toString status), customer] then
        if WithLabelValues [operation, str (toString status), customer] then
          (false, some resp,
            ev ++ [.requestsInc operation (str (toString status)) customer,
                   .latencyObserve operation (str (toString status)) customer
                     (Since e.finish e.start)])
        else (true, some resp, ev ++ [.requestsInc operation (str (toString status)) customer])
      else (true, some resp, ev)
    let body : Bool × Option Response × List Event :=
      if Float32.lt e.failure float32_0_05 then
        if WithLabelValues [str "internal_server_error", customer, operation] then
          record StatusInternalServerError
            { status := StatusInternalServerError, body := str "Internal Server Error\n" }
            (ev2 ++ [.errorsInc (str "internal_server_error") customer operation])
        else (true, none, ev2)
      else if customer ≠ str "unknown" ∧ operation ≠ str "unknown" then
        record StatusOK
          { status := StatusOK,
            body := str "Hello, " ++ customer ++ str "! Operation: " ++ operation }
          ev2
      else
        record StatusOK { status := StatusOK, body := str "Hello!" } ev2
    match releaseDBConnection a.state with
    | some (s2, ev5) =>
      some { panicked := body.1, response := body.2.1, state := s2,
             events := body.2.2 ++ ev5 }
    | none => none

/-! ## runClient -/

def getRequestsPerSecond : Nat := 500

/-- What the `select` of one iteration of `runClient` meets: whether `ticker.C` holds a
tick, and the case the runtime picks when both cases can proceed (`true`: the ticker
case). -/
structure SelectEnv where
  tickReady : Bool
  pickTick : Bool
  deriving DecidableEq, Repr

/-- The two cases of the `select`. -/
inductive SelectCase where
  | tick
  | done
  deriving DecidableEq, Repr

/-- The case a `select` runs, `ctxDone` telling whether `ctx.Done()` is closed: the one
that can proceed, the runtime's pick when both can, none while neither can (the `select`
blocks). -/
def selectCase (e : SelectEnv) (ctxDone : Bool) : Option SelectCase :=
  match e.tickReady, ctxDone with
  | true, true => some (if e.pickTick then .tick else .done)
  | true, false => some .tick
  | false, true => some .done
  | false, false => none

/-- What one epoch of `runClient` does, in program order. -/
inductive ClientEvent where
  /-- The `select` of iteration `i` ran the case `c`, with `ctx.Done()` closed or not. -/
  | selected (i : Nat) (ctxDone : Bool) (c : SelectCase)
  /-- Iteration `i` ran `wg.Add(1)` and launched a request goroutine. -/
  | launch (i : Nat)
  /-- The call `ticker.Stop()`. -/
  | tickerStop
  /-- The call `wg.Wait()`. -/
  | wgWait
  /-- The call `cancel()`, which closes `ctx.Done()`. -/
  | cancel
  deriving DecidableEq, Repr

/-- The iterations `i, i + 1, ...` of the loop `for i := 0; i < rps; i++ { select { ... } }`,
`n` of them left, `env i` being what the `select` of iteration `i` meets.  The case
`<-ctx.Done()` runs `break`, which leaves the `select` statement; the post statement
`i++` follows in both cases.  Nothing in the loop closes `ctx.Done()`. -/
def loopFrom (env : Nat → SelectEnv) (ctxDone : Bool) (i : Nat) : Nat → Option (List ClientEvent)
  | 0 => some []
  | n + 1 =>
    match selectCase (env i) ctxDone with
    | none => none
    | some .tick =>
      (loopFrom env ctxDone (i + 1) n).map
        (fun l => .selected i ctxDone .tick :: .launch i :: l)
    | some .done =>
      (loopFrom env ctxDone (i + 1) n).map (fun l => .selected i ctxDone .done :: l)

/-- One epoch of `runClient`, the body of its outer `for`: `ctx` is made by
`context.WithCancel(context.Background())`, so `ctx.Done()` is open until `cancel()` is
called; the loop runs its `rps` iterations; then come `ticker.Stop()`, `wg.Wait()` and
`cancel()`.  No result when a `select` blocks for ever. -/
def runEpoch (env : Nat → SelectEnv) : Option (List ClientEvent) :=
  let rps := getRequestsPerSecond
  let ctxDone := false
  (loopFrom env ctxDone 0 rps).map (fun l => l ++ [.tickerStop, .wgWait, .cancel])

/-- The event is the launch of a request goroutine. -/
def ClientEvent.isLaunch : ClientEvent → Bool
  | .launch _ => true
  | _ => false

/-! ## Sequences of calls -/

/-- One call `calculateDBConnectionDelay(customer)` with its inputs. -/
structure Call where
  customer : GoString
  env : DelayEnv
  deriving DecidableEq, Repr

/-- The state after the calls `cs`, made one after the other from the state `s`. -/
def runCalls (s : State) (cs : List Call) : State :=
  cs.foldl (fun st c => (calculateDBConnectionDelay st c.customer c.env).2) s

/-- The call `c` made in the state `s` re-arms the window: the first condition of
`calculateDBConnectionDelay`, `now.Sub(lastSpikeTime) > spikeInterval`, holds. -/
def rearms (s : State) (c : Call) : Prop :=
  Sub c.env.now s.lastSpikeTime > spikeInterval

instance (s : State) (c : Call) : Decidable (rearms s c) := by
  unfold rearms
  infer_instance

/-- The delay lies in the high band `[1500 ms, 2000 ms)`. -/
def inSpikeBand (d : Duration) : Prop := 1500 * Millisecond ≤ d ∧ d < 2000 * Millisecond

/-- The delay lies in the low band `[0 ms, 50 ms)`. -/
def inBaseBand (d : Duration) : Prop := 0 ≤ d ∧ d < 50 * Millisecond

/-! ## Sequences of pool operations -/

/-- One operation on the pool: a call of `acquireDBConnection` with its inputs, or a
call of `releaseDBConnection`. -/
inductive PoolStep where
  | acquire (customer : GoString) (e : AcqEnv)
  | release
  deriving DecidableEq, Repr

/-- The state one pool operation leaves; none when the operation blocks. -/
def poolStep (s : State) : PoolStep → Option State
  | .acquire customer e => some (acquireDBConnection s customer e).state
  | .release => (releaseDBConnection s).map (fun r => r.1)

/-- The state a sequence of pool operations leaves; none when one of them blocks. -/
def runPool (s : State) : List PoolStep → Option State
  | [] => some s
  | st :: rest =>
    match poolStep s st with
    | some s1 => runPool s1 rest
    | none => none

/-- The pool invariant: the buffer holds at most `maxDBConnections` elements and the
gauge equals the number held. -/
def PoolInv (s : State) : Prop :=
  s.dbPool ≤ maxDBConnections ∧ s.dbConnections = (s.dbPool : Int)

/-! ## Kinds of events -/

def Event.isRequestsInc : Event → Bool
  | .requestsInc _ _ _ => true
  | _ => false

def Event.isLatencyObserve : Event → Bool
  | .latencyObserve _ _ _ _ => true
  | _ => false

def Event.isErrorsInc : Event → Bool
  | .errorsInc _ _ _ => true
  | _ => false

def Event.isSleep : Event → Bool
  | .sleep _ => true
  | _ => false

def Event.isDbConnectionLatencyObserve : Event → Bool
  | .dbConnectionLatencyObserve _ _ => true
  | _ => false

/-! ## Sample inputs -/

/-- A clock reading one hour after the zero `Time`. -/
def sampleTime : Time := 3600 * Second

/-- Inputs of a delay computation at `sampleTime`: the tenant pick is `customers[1]`. -/
def sampleDelayEnv : DelayEnv := { now := sampleTime, pick := 6, spike := 1234, base := 77 }

/-- Inputs of an acquisition at `sampleTime`, finished 30 ms later, during which no
other goroutine releases a slot. -/
def sampleAcqEnv : AcqEnv :=
  { start := sampleTime, delay := sampleDelayEnv, released := false,
    finish := sampleTime + 30 * Millisecond }

/-- A request of the tenant `Beta` for the operation `Read`. -/
def sampleRequest : Request := { xOperation := str "Read", xCustomer := str "Beta" }

/-- Inputs of a request at `sampleTime`: the draw `rand.Float32()` is `0.5`. -/
def sampleReqEnv : ReqEnv :=
  { start := sampleTime, acquire := sampleAcqEnv, processing := 20,
    failure := { mant := 1, exp := 1 }, finish := sampleTime + 80 * Millisecond }

/-- The pool operations of `maxDBConnections` requests that have each acquired a slot
and not yet released it. -/
def fillPool : List PoolStep :=
  List.replicate maxDBConnections (.acquire (str "Beta") sampleAcqEnv)

/-- A call at `sampleTime` for the tenant `Beta`, the tenant its pick selects. -/
def sampleCall0 : Call := { customer := str "Beta", env := sampleDelayEnv }

/-- A call for the tenant `Alpha`, 10 s after `sampleTime`. -/
def sampleCallMid : Call :=
  { customer := str "Alpha", env := { sampleDelayEnv with now := sampleTime + 10 * Second } }

/-- A call for the tenant `Beta`, 20 s after `sampleTime`. -/
def sampleCall : Call :=
  { customer := str "Beta", env := { sampleDelayEnv with now := sampleTime + 20 * Second } }

/-- A header value of the single byte `0xFF`, which is not valid UTF-8. -/
def invalidHeader : GoString := [0xFF]

/-- A request whose header `X-Customer` is not valid UTF-8. -/
def invalidCustomerRequest : Request := { xOperation := str "Read", xCustomer := invalidHeader }

/-- A request whose header `X-Operation` is not valid UTF-8. -/
def invalidOperationRequest : Request :=
  { xOperation := invalidHeader, xCustomer := str "Beta" }

/-- Inputs of a request at `sampleTime` whose draw `rand.Float32()` is `1 / 64`. -/
def sampleFailingReqEnv : ReqEnv := { sampleReqEnv with failure := { mant := 1, exp := 6 } }

/-- An environment of `runClient` in which every `select` finds a tick. -/
def sampleTicks : Nat → SelectEnv := fun _ => { tickReady := true, pickTick := true }

end PromGoDemo

namespace PromGoDemo

/-! ## Auxiliary facts -/

theorem Sub_gt_iff (t u : Time) (c : Duration) (h1 : minDuration ≤ c) (h2 : c < maxDuration) :
    Sub t u > c ↔ t - u > c := by
  unfold Sub
  simp only [minDuration, maxDuration, Duration, Time] at *
  split_ifs <;> omega

theorem Sub_lt_iff (t u : Time) (c : Duration) (h1 : minDuration < c) (h2 : c ≤ maxDuration) :
    Sub t u < c ↔ t - u < c := by
  unfold Sub
  simp only [minDuration, maxDuration, Duration, Time] at *
  split_ifs <;> omega

theorem Sub_gt_spikeInterval (t u : Time) : Sub t u > spikeInterval ↔ t - u > spikeInterval :=
  Sub_gt_iff t u _ (by decide) (by decide)

theorem Sub_gt_spikeDuration (t u : Time) : Sub t u > spikeDuration ↔ t - u > spikeDuration :=
  Sub_gt_iff t u _ (by decide) (by decide)

theorem Sub_lt_spikeDuration (t u : Time) : Sub t u < spikeDuration ↔ t - u < spikeDuration :=
  Sub_lt_iff t u _ (by decide) (by decide)

/-- The comparison `Float32.lt` is the comparison of the numbers. -/
theorem Float32.lt_iff_toRat (f g : Float32) : f.lt g = true ↔ f.toRat < g.toRat := by
  unfold Float32.lt Float32.toRat
  rw [decide_eq_true_iff, div_lt_div_iff₀ (by positivity) (by positivity)]
  exact_mod_cast Iff.rfl

/-- For a significand of at most 24 bits, being below the float32 nearest to `0.05` is
being below `1 / 20`, with the denominators cleared. -/
theorem Float32.lt_0_05_iff_nat (mant exp : Nat) (h : mant < 2 ^ 24) :
    mant * 2 ^ 28 < 13421773 * 2 ^ exp ↔ 20 * mant < 2 ^ exp := by
  by_cases hle : exp ≤ 28
  · interval_cases exp <;> norm_num at h ⊢ <;> omega
  · have hpow : 2 ^ 29 ≤ 2 ^ exp := Nat.pow_le_pow_right (by decide) (by omega)
    generalize 2 ^ exp = a at hpow ⊢
    norm_num at h hpow ⊢
    constructor <;> intro _ <;> omega

/-- For a float32 draw (a significand of at most 24 bits), the comparison of the code
with the constant `0.05` is the comparison of the number drawn with `5 / 100`. -/
theorem Float32.lt_0_05_iff (f : Float32) (h : f.mant < 2 ^ 24) :
    f.lt float32_0_05 = true ↔ f.toRat < 5 / 100 := by
  unfold Float32.lt Float32.toRat float32_0_05
  rw [decide_eq_true_iff, Float32.lt_0_05_iff_nat f.mant f.exp h,
    div_lt_div_iff₀ (by positivity) (by positivity)]
  constructor
  · intro hlt
    have hq : ((20 * f.mant : Nat) : Rat) < ((2 ^ f.exp : Nat) : Rat) := by exact_mod_cast hlt
    push_cast at hq
    linarith
  · intro hlt
    have hq : ((20 * f.mant : Nat) : Rat) < ((2 ^ f.exp : Nat) : Rat) := by
      push_cast
      linarith
    exact_mod_cast hq

/-- The state `calculateDBConnectionDelay` leaves, with the clock differences written
as differences of integers. -/
theorem calculateDBConnectionDelay_snd (s : State) (customer : GoString) (e : DelayEnv) :
    (calculateDBConnectionDelay s customer e).2 =
      if e.now - s.lastSpikeTime > spikeInterval then
        { s with
          lastSpikeTime := e.now
          currentSpikeCustomer :=
            customers.get ⟨Intn e.pick customers.length, Nat.mod_lt _ (by decide)⟩ }
      else if e.now - s.lastSpikeTime > spikeDuration then
        { s with currentSpikeCustomer := [] }
      else s := by
  unfold calculateDBConnectionDelay
  simp only [Sub_gt_spikeInterval, Sub_gt_spikeDuration, Sub_lt_spikeDuration]
  by_cases h1 : e.now - s.lastSpikeTime > spikeInterval
  · have h2 : ¬ (e.now - e.now > spikeDuration) := by
      simp only [spikeDuration, Second, Millisecond, Duration, Time]; omega
    simp only [h1, if_true, h2, if_false]
    split_ifs <;> rfl
  · simp only [h1, if_false]
    by_cases h3 : e.now - s.lastSpikeTime > spikeDuration
    · simp only [h3, if_true]
      split_ifs <;> rfl
    · simp only [h3, if_false]
      split_ifs <;> rfl

/-- The delay `calculateDBConnectionDelay` returns, in terms of the state it leaves. -/
theorem calculateDBConnectionDelay_fst (s : State) (customer : GoString) (e : DelayEnv) :
    (calculateDBConnectionDelay s customer e).1 =
      if e.now - (calculateDBConnectionDelay s customer e).2.lastSpikeTime < spikeDuration ∧
          customer = (calculateDBConnectionDelay s customer e).2.currentSpikeCustomer then
        ((Intn e.spike 500 + 1500 : Nat) : Int) * Millisecond
      else ((Intn e.base 50 : Nat) : Int) * Millisecond := by
  unfold calculateDBConnectionDelay
  simp only [Sub_lt_spikeDuration]
  split_ifs <;> rfl

/-- A delay of the spike branch is in `[1500 ms, 2000 ms)`. -/
theorem spike_delay_bounds (raw : Nat) :
    1500 * Millisecond ≤ ((Intn raw 500 + 1500 : Nat) : Int) * Millisecond ∧
      ((Intn raw 500 + 1500 : Nat) : Int) * Millisecond < 2000 * Millisecond := by
  simp only [Intn, Millisecond, Duration]
  omega

/-- A delay of the base branch is in `[0 ms, 50 ms)`. -/
theorem base_delay_bounds (raw : Nat) :
    0 ≤ ((Intn raw 50 : Nat) : Int) * Millisecond ∧
      ((Intn raw 50 : Nat) : Int) * Millisecond < 50 * Millisecond := by
  simp only [Intn, Millisecond, Duration]
  omega

/-! ## The delay bands and the spike state machine -/

/-- C2: for every state, time and tenant, the delay `calculateDBConnectionDelay`
returns is in `[1500 ms, 2000 ms)` when, in the state the call leaves,
`now - lastSpikeTime < spikeDuration` and the tenant is `currentSpikeCustomer`, and in
`[0 ms, 50 ms)` in every other case; in particular it is in `[0 ms, 50 ms)` whenever the
tenant is not `currentSpikeCustomer`. -/
theorem calculateDBConnectionDelay_band (s : State) (customer : GoString) (e : DelayEnv) :
    (if e.now - (calculateDBConnectionDelay s customer e).2.lastSpikeTime < 30 * Second ∧
        customer = (calculateDBConnectionDelay s customer e).2.currentSpikeCustomer then
      1500 * Millisecond ≤ (calculateDBConnectionDelay s customer e).1 ∧
        (calculateDBConnectionDelay s customer e).1 < 2000 * Millisecond
    else
      0 ≤ (calculateDBConnectionDelay s customer e).1 ∧
        (calculateDBConnectionDelay s customer e).1 < 50 * Millisecond) ∧
    (customer ≠ (calculateDBConnectionDelay s customer e).2.currentSpikeCustomer →
      0 ≤ (calculateDBConnectionDelay s customer e).1 ∧
        (calculateDBConnectionDelay s customer e).1 < 50 * Millisecond) := by
  have hfst := calculateDBConnectionDelay_fst s customer e
  rw [spikeDuration] at hfst
  refine ⟨?_, ?_⟩
  · split_ifs with h
    · rw [hfst, if_pos h]
      exact spike_delay_bounds e.spike
    · rw [hfst, if_neg h]
      exact base_delay_bounds e.base
  · intro hne
    rw [hfst, if_neg (fun h => hne h.2)]
    exact base_delay_bounds e.base

/-- C4: the state `calculateDBConnectionDelay` leaves.  When
`now - lastSpikeTime > 5 min` the window start becomes `now` and the spike tenant a
member of `customers` (so it is not cleared in that call); otherwise the window start
is unchanged, and the spike tenant is cleared when `now - lastSpikeTime > 30 s` and
unchanged when `now - lastSpikeTime ≤ 30 s`.  The pool and the gauge are untouched. -/
theorem calculateDBConnectionDelay_state (s : State) (customer : GoString) (e : DelayEnv) :
    (if e.now - s.lastSpikeTime > 5 * Minute then
      (calculateDBConnectionDelay s customer e).2.lastSpikeTime = e.now ∧
        (calculateDBConnectionDelay s customer e).2.currentSpikeCustomer ∈ customers ∧
        (calculateDBConnectionDelay s customer e).2.currentSpikeCustomer ≠ []
    else
      (calculateDBConnectionDelay s customer e).2.lastSpikeTime = s.lastSpikeTime ∧
        (calculateDBConnectionDelay s customer e).2.currentSpikeCustomer =
          if e.now - s.lastSpikeTime > 30 * Second then [] else s.currentSpikeCustomer) ∧
    (calculateDBConnectionDelay s customer e).2.dbPool = s.dbPool ∧
    (calculateDBConnectionDelay s customer e).2.dbConnections = s.dbConnections := by
  rw [calculateDBConnectionDelay_snd]
  simp only [spikeInterval, spikeDuration]
  by_cases h1 : e.now - s.lastSpikeTime > 5 * Minute
  · simp only [h1, if_true, and_true]
    have hmem : customers.get ⟨Intn e.pick customers.length, Nat.mod_lt _ (by decide)⟩
        ∈ customers := List.get_mem _ _ _
    refine ⟨trivial, hmem, ?_⟩
    intro h0
    rw [h0] at hmem
    exact absurd hmem (by decide)
  · simp only [h1, if_false]
    by_cases h3 : e.now - s.lastSpikeTime > 30 * Second
    · simp only [h3, if_true, and_self]
    · simp only [h3, if_false, and_self]

/-! ## A spike window over a sequence of calls -/

theorem runCalls_append (s : State) (a b : List Call) :
    runCalls s (a ++ b) = runCalls (runCalls s a) b := by
  simp [runCalls, List.foldl_append]

theorem runCalls_cons (s : State) (c : Call) (cs : List Call) :
    runCalls s (c :: cs) = runCalls (calculateDBConnectionDelay s c.customer c.env).2 cs := rfl

/-- Calls no later than the spike duration after the window start leave the state as it is. -/
theorem runCalls_within_duration (mid : List Call) (s : State)
    (h : ∀ c ∈ mid, c.env.now - s.lastSpikeTime ≤ spikeDuration) :
    runCalls s mid = s := by
  induction mid generalizing s with
  | nil => rfl
  | cons c cs ih =>
    have hc := h c (List.mem_cons_self _ _)
    have hstep : (calculateDBConnectionDelay s c.customer c.env).2 = s := by
      rw [calculateDBConnectionDelay_snd]
      have h1 : ¬ (c.env.now - s.lastSpikeTime > spikeInterval) := by
        simp only [spikeDuration, spikeInterval, Minute, Second, Millisecond, Duration, Time]
          at hc ⊢
        omega
      have h2 : ¬ (c.env.now - s.lastSpikeTime > spikeDuration) := by
        simp only [Duration, Time] at hc ⊢
        omega
      rw [if_neg h1, if_neg h2]
    rw [runCalls_cons, hstep]
    exact ih s (fun c' hc' => h c' (List.mem_cons_of_mem _ hc'))

/-- Calls no later than the spike interval after the window start do not move it. -/
theorem runCalls_within_interval (mid : List Call) (s : State)
    (h : ∀ c ∈ mid, c.env.now - s.lastSpikeTime ≤ spikeInterval) :
    (runCalls s mid).lastSpikeTime = s.lastSpikeTime := by
  induction mid generalizing s with
  | nil => rfl
  | cons c cs ih =>
    have hc := h c (List.mem_cons_self _ _)
    have hstep : (calculateDBConnectionDelay s c.customer c.env).2.lastSpikeTime
        = s.lastSpikeTime := by
      rw [calculateDBConnectionDelay_snd]
      have h1 : ¬ (c.env.now - s.lastSpikeTime > spikeInterval) := by
        simp only [Duration, Time] at hc ⊢
        omega
      rw [if_neg h1]
      split_ifs <;> rfl
    rw [runCalls_cons]
    rw [ih _ (fun c' hc' => by rw [hstep]; exact h c' (List.mem_cons_of_mem _ hc')), hstep]

/-- The window start never falls below a time that is below it and below every call. -/
theorem runCalls_lastSpikeTime_ge (mid : List Call) (s : State) (t0 : Time)
    (hs : t0 ≤ s.lastSpikeTime) (h : ∀ c ∈ mid, t0 ≤ c.env.now) :
    t0 ≤ (runCalls s mid).lastSpikeTime := by
  induction mid generalizing s with
  | nil => exact hs
  | cons c cs ih =>
    rw [runCalls_cons]
    refine ih _ ?_ (fun c' hc' => h c' (List.mem_cons_of_mem _ hc'))
    rw [calculateDBConnectionDelay_snd]
    split_ifs
    · exact h c (List.mem_cons_self _ _)
    · exact hs
    · exact hs

/-- The order facts a non-decreasing sequence `pre ++ c0 :: (mid ++ [c])` gives. -/
theorem sorted_calls_order (pre mid : List Call) (c0 c : Call)
    (hsorted : List.Sorted (· ≤ ·) ((pre ++ c0 :: (mid ++ [c])).map (fun x => x.env.now))) :
    c0.env.now ≤ c.env.now ∧
      ∀ m ∈ mid, c0.env.now ≤ m.env.now ∧ m.env.now ≤ c.env.now := by
  simp only [List.Sorted, List.map_append, List.map_cons, List.map_nil, List.pairwise_append,
    List.pairwise_cons, List.mem_append, List.mem_map, List.mem_cons, List.mem_singleton,
    List.not_mem_nil] at hsorted
  obtain ⟨-, ⟨h0, hmid, -, hlast⟩, -⟩ := hsorted
  refine ⟨h0 _ (Or.inr (Or.inl rfl)), fun m hm => ⟨h0 _ (Or.inl ⟨m, hm, rfl⟩), ?_⟩⟩
  exact hlast _ ⟨m, hm, rfl⟩ _ (Or.inl rfl)

/-- C3: along calls with non-decreasing timestamps from the initial state, let the call
`c0` at time `t0` re-arm the window and select the tenant `X`.  Then `c0` itself, if it is
for `X`, gets a delay in `[1500 ms, 2000 ms)`; a later call `c` for `X` at time `t` gets a
delay in `[1500 ms, 2000 ms)` when `t - t0 < 30 s` and in `[0 ms, 50 ms)` when
`30 s ≤ t - t0 ≤ 5 min`; and a later call re-arms the window only when `t - t0 > 5 min`. -/
theorem spike_window_schedule (pre mid : List Call) (c0 c : Call) (X : GoString)
    (hsorted : List.Sorted (· ≤ ·) ((pre ++ c0 :: (mid ++ [c])).map (fun x => x.env.now)))
    (hrearm : rearms (runCalls State.init pre) c0)
    (hX : (calculateDBConnectionDelay (runCalls State.init pre) c0.customer
      c0.env).2.currentSpikeCustomer = X) :
    (c0.customer = X →
      inSpikeBand (calculateDBConnectionDelay (runCalls State.init pre) c0.customer c0.env).1) ∧
    (c.customer = X → c.env.now - c0.env.now < 30 * Second →
      inSpikeBand (calculateDBConnectionDelay (runCalls State.init (pre ++ c0 :: mid))
        c.customer c.env).1) ∧
    (c.customer = X → 30 * Second ≤ c.env.now - c0.env.now →
      c.env.now - c0.env.now ≤ 5 * Minute →
      inBaseBand (calculateDBConnectionDelay (runCalls State.init (pre ++ c0 :: mid))
        c.customer c.env).1) ∧
    (rearms (runCalls State.init (pre ++ c0 :: mid)) c →
      c.env.now - c0.env.now > 5 * Minute) := by
  obtain ⟨h0c, hmid⟩ := sorted_calls_order pre mid c0 c hsorted
  have hr : c0.env.now - (runCalls State.init pre).lastSpikeTime > spikeInterval :=
    (Sub_gt_spikeInterval _ _).1 hrearm
  -- the state the re-arming call leaves
  have hlast1 : (calculateDBConnectionDelay (runCalls State.init pre) c0.customer
      c0.env).2.lastSpikeTime = c0.env.now := by
    rw [calculateDBConnectionDelay_snd, if_pos hr]
  have hrun : runCalls State.init (pre ++ c0 :: mid) =
      runCalls (calculateDBConnectionDelay (runCalls State.init pre) c0.customer c0.env).2
        mid := by
    rw [runCalls_append, runCalls_cons]
  refine ⟨?_, ?_, ?_, ?_⟩
  · intro hc
    rw [calculateDBConnectionDelay_fst, hlast1, hX, if_pos ⟨by rw [sub_self]; decide, hc⟩]
    exact spike_delay_bounds _
  · intro hc hlt
    have hkeep : runCalls (calculateDBConnectionDelay (runCalls State.init pre) c0.customer
        c0.env).2 mid = (calculateDBConnectionDelay (runCalls State.init pre) c0.customer
        c0.env).2 := by
      apply runCalls_within_duration
      intro m hm
      rw [hlast1]
      have hmc := (hmid m hm).2
      simp only [spikeDuration, Second, Millisecond, Duration, Time] at hlt hmc ⊢
      omega
    rw [hrun, hkeep]
    have hsnd : (calculateDBConnectionDelay (calculateDBConnectionDelay (runCalls State.init pre)
        c0.customer c0.env).2 c.customer c.env).2 =
        (calculateDBConnectionDelay (runCalls State.init pre) c0.customer c0.env).2 := by
      rw [calculateDBConnectionDelay_snd, hlast1]
      have h1 : ¬ (c.env.now - c0.env.now > spikeInterval) := by
        simp only [spikeInterval, Minute, Second, Millisecond, Duration, Time] at hlt ⊢
        omega
      have h2 : ¬ (c.env.now - c0.env.now > spikeDuration) := by
        simp only [spikeDuration, Second, Millisecond, Duration, Time] at hlt ⊢
        omega
      rw [if_neg h1, if_neg h2]
    rw [calculateDBConnectionDelay_fst, hsnd, hlast1, hX, if_pos ⟨hlt, hc⟩]
    exact spike_delay_bounds _
  · intro _ hge hle
    have hkeep : (runCalls (calculateDBConnectionDelay (runCalls State.init pre) c0.customer
        c0.env).2 mid).lastSpikeTime = c0.env.now := by
      rw [runCalls_within_interval, hlast1]
      intro m hm
      rw [hlast1]
      have hmc := (hmid m hm).2
      simp only [spikeInterval, Minute, Second, Millisecond, Duration, Time] at hle hmc ⊢
      omega
    have hsnd : (calculateDBConnectionDelay (runCalls State.init (pre ++ c0 :: mid))
        c.customer c.env).2.lastSpikeTime = c0.env.now := by
      rw [calculateDBConnectionDelay_snd, hrun, hkeep]
      have h1 : ¬ (c.env.now - c0.env.now > spikeInterval) := by
        simp only [spikeInterval, Minute, Second, Millisecond, Duration, Time] at hle ⊢
        omega
      rw [if_neg h1]
      split_ifs
      · rfl
      · exact hkeep
    have hnot : ¬ (c.env.now - c0.env.now < spikeDuration) := by
      simp only [spikeDuration, Second, Millisecond, Duration, Time] at hge ⊢
      omega
    rw [calculateDBConnectionDelay_fst, hsnd, if_neg (fun h => hnot h.1)]
    exact base_delay_bounds _
  · intro hre
    have hre2 : c.env.now - (runCalls State.init (pre ++ c0 :: mid)).lastSpikeTime >
        spikeInterval := (Sub_gt_spikeInterval _ _).1 hre
    have hge : c0.env.now ≤ (runCalls State.init (pre ++ c0 :: mid)).lastSpikeTime := by
      rw [hrun]
      exact runCalls_lastSpikeTime_ge mid _ _ (le_of_eq hlast1.symm)
        (fun m hm => (hmid m hm).1)
    simp only [spikeInterval, Minute, Second, Millisecond, Duration, Time] at hre2 hge ⊢
    omega

/-! ## The pool -/

theorem calculateDBConnectionDelay_dbPool (s : State) (customer : GoString) (e : DelayEnv) :
    (calculateDBConnectionDelay s customer e).2.dbPool = s.dbPool := by
  rw [calculateDBConnectionDelay_snd]
  split_ifs <;> rfl

theorem calculateDBConnectionDelay_dbConnections (s : State) (customer : GoString)
    (e : DelayEnv) :
    (calculateDBConnectionDelay s customer e).2.dbConnections = s.dbConnections := by
  rw [calculateDBConnectionDelay_snd]
  split_ifs <;> rfl

/-- The run of `acquireDBConnection` when the send proceeds at once. -/
theorem acquireDBConnection_free (s : State) (customer : GoString) (e : AcqEnv)
    (hfree : s.dbPool < maxDBConnections) :
    acquireDBConnection s customer e =
      if WithLabelValues [customer] = true then
        { ret := some true,
          state := { (calculateDBConnectionDelay s customer e.delay).2 with
            dbPool := s.dbPool + 1, dbConnections := s.dbConnections + 1 },
          events := [.sleep (calculateDBConnectionDelay s customer e.delay).1, .dbPoolSend,
            .dbConnectionsInc, .dbConnectionLatencyObserve customer (Since e.finish e.start)] }
      else
        { ret := none,
          state := { (calculateDBConnectionDelay s customer e.delay).2 with
            dbPool := s.dbPool + 1, dbConnections := s.dbConnections + 1 },
          events := [.sleep (calculateDBConnectionDelay s customer e.delay).1, .dbPoolSend,
            .dbConnectionsInc] } := by
  unfold acquireDBConnection
  simp only [calculateDBConnectionDelay_dbPool, calculateDBConnectionDelay_dbConnections,
    if_pos hfree]

/-- The run of `acquireDBConnection` on a full pool when another goroutine releases a
slot before the timer fires. -/
theorem acquireDBConnection_released (s : State) (customer : GoString) (e : AcqEnv)
    (hfull : ¬ s.dbPool < maxDBConnections) (hrel : e.released = true) :
    acquireDBConnection s customer e =
      if WithLabelValues [customer] = true then
        { ret := some true,
          state := { (calculateDBConnectionDelay s customer e.delay).2 with
            dbPool := s.dbPool - 1 + 1, dbConnections := s.dbConnections - 1 + 1 },
          events := [.sleep (calculateDBConnectionDelay s customer e.delay).1, .dbPoolSend,
            .dbConnectionsInc, .dbConnectionLatencyObserve customer (Since e.finish e.start)] }
      else
        { ret := none,
          state := { (calculateDBConnectionDelay s customer e.delay).2 with
            dbPool := s.dbPool - 1 + 1, dbConnections := s.dbConnections - 1 + 1 },
          events := [.sleep (calculateDBConnectionDelay s customer e.delay).1, .dbPoolSend,
            .dbConnectionsInc] } := by
  have hpos : 0 < s.dbPool := by
    have : 0 < maxDBConnections := by decide
    omega
  unfold acquireDBConnection releaseDBConnection
  simp only [calculateDBConnectionDelay_dbPool, calculateDBConnectionDelay_dbConnections,
    if_neg hfull, hrel, if_true, if_pos hpos, Option.map_some']

/-- The run of `acquireDBConnection` on a pool that stays full until the timer fires. -/
theorem acquireDBConnection_timeout (s : State) (customer : GoString) (e : AcqEnv)
    (hfull : ¬ s.dbPool < maxDBConnections) (hrel : e.released = false) :
    acquireDBConnection s customer e =
      { ret := some false, state := (calculateDBConnectionDelay s customer e.delay).2,
        events := [.sleep (calculateDBConnectionDelay s customer e.delay).1] } := by
  unfold acquireDBConnection
  simp [calculateDBConnectionDelay_dbPool, hfull, hrel]

/-- The held count after `acquireDBConnection`: one more from a pool that is not full,
the same from a full pool. -/
theorem acquireDBConnection_dbPool (s : State) (customer : GoString) (e : AcqEnv) :
    (acquireDBConnection s customer e).state.dbPool =
      if s.dbPool < maxDBConnections then s.dbPool + 1 else s.dbPool := by
  by_cases hfree : s.dbPool < maxDBConnections
  · rw [acquireDBConnection_free s customer e hfree, if_pos hfree]
    split_ifs <;> rfl
  · rw [if_neg hfree]
    have hpos : 0 < maxDBConnections := by decide
    cases hrel : e.released with
    | true =>
      rw [acquireDBConnection_released s customer e hfree hrel]
      split_ifs <;> simp only <;> omega
    | false =>
      rw [acquireDBConnection_timeout s customer e hfree hrel]
      exact calculateDBConnectionDelay_dbPool _ _ _

/-- The gauge after `acquireDBConnection`, with the release of the other goroutine
counted: one more from a pool that is not full, the same from a full pool. -/
theorem acquireDBConnection_dbConnections (s : State) (customer : GoString) (e : AcqEnv) :
    (acquireDBConnection s customer e).state.dbConnections =
      if s.dbPool < maxDBConnections then s.dbConnections + 1 else s.dbConnections := by
  by_cases hfree : s.dbPool < maxDBConnections
  · rw [acquireDBConnection_free s customer e hfree, if_pos hfree]
    split_ifs <;> rfl
  · rw [if_neg hfree]
    cases hrel : e.released with
    | true =>
      rw [acquireDBConnection_released s customer e hfree hrel]
      split_ifs <;> simp only <;> omega
    | false =>
      rw [acquireDBConnection_timeout s customer e hfree hrel]
      exact calculateDBConnectionDelay_dbConnections _ _ _

theorem poolStep_inv (s s1 : State) (st : PoolStep) (h : PoolInv s)
    (hstep : poolStep s st = some s1) : PoolInv s1 := by
  obtain ⟨h1, h2⟩ := h
  cases st with
  | acquire customer e =>
    simp only [poolStep, Option.some.injEq] at hstep
    subst hstep
    unfold PoolInv
    rw [acquireDBConnection_dbPool, acquireDBConnection_dbConnections]
    split_ifs with hlt
    · simp only [Nat.cast_add, Nat.cast_one]
      omega
    · exact ⟨h1, h2⟩
  | release =>
    unfold poolStep releaseDBConnection at hstep
    split_ifs at hstep with hpos
    · simp only [Option.map_some', Option.some.injEq] at hstep
      subst hstep
      unfold PoolInv
      simp only
      omega
    · simp at hstep

theorem runPool_inv (steps : List PoolStep) (s s1 : State) (h : PoolInv s)
    (hrun : runPool s steps = some s1) : PoolInv s1 := by
  induction steps generalizing s with
  | nil =>
    simp only [runPool, Option.some.injEq] at hrun
    exact hrun ▸ h
  | cons st rest ih =>
    unfold runPool at hrun
    cases hstep : poolStep s st with
    | none => simp [hstep] at hrun
    | some s2 =>
      simp only [hstep] at hrun
      exact ih s2 (poolStep_inv s s2 st h hstep) hrun

/-- C5: in every state reached from the initial state (empty pool) by
`acquireDBConnection` and `releaseDBConnection` steps, the number of held slots is at
least 0 and at most `maxDBConnections`, the gauge equals it, and a further acquire on a
full pool adds no slot. -/
theorem dbPool_within_capacity (steps : List PoolStep) (s : State)
    (hrun : runPool State.init steps = some s) :
    0 ≤ s.dbPool ∧ s.dbPool ≤ maxDBConnections ∧ maxDBConnections = 1000 ∧
      s.dbConnections = (s.dbPool : Int) ∧
      ∀ (customer : GoString) (e : AcqEnv), s.dbPool = maxDBConnections →
        (acquireDBConnection s customer e).state.dbPool = s.dbPool := by
  have hinit : PoolInv State.init := ⟨by decide, rfl⟩
  obtain ⟨h1, h2⟩ := runPool_inv steps State.init s hinit hrun
  refine ⟨Nat.zero_le _, h1, rfl, h2, ?_⟩
  intro customer e hfull
  rw [acquireDBConnection_dbPool, if_neg (by omega)]

/-- C8: from a pool with a free slot, `acquireDBConnection` takes a slot, returning true
for every tenant that is valid UTF-8, and a following `releaseDBConnection` returns,
leaving the held count, the available capacity and the gauge as they were before the
acquire. -/
theorem acquire_release_identity (s : State) (customer : GoString) (e : AcqEnv)
    (hfree : s.dbPool < maxDBConnections) :
    (ValidString customer = true → (acquireDBConnection s customer e).ret = some true) ∧
    (releaseDBConnection (acquireDBConnection s customer e).state).map
      (fun r => r.1.dbPool) = some s.dbPool ∧
    (releaseDBConnection (acquireDBConnection s customer e).state).map
      (fun r => maxDBConnections - r.1.dbPool) = some (maxDBConnections - s.dbPool) ∧
    (releaseDBConnection (acquireDBConnection s customer e).state).map
      (fun r => r.1.dbConnections) = some s.dbConnections := by
  rw [acquireDBConnection_free s customer e hfree]
  refine ⟨fun hv => ?_, ?_, ?_, ?_⟩
  · simp [WithLabelValues, hv]
  all_goals split_ifs <;> simp [releaseDBConnection]

/-- The outcome of `acquireDBConnection` for a tenant that is valid UTF-8.  It returns
true exactly when a slot is free within the timeout: the pool is not full, or another
goroutine releases a slot before the timer fires.  In that case the held count and the
gauge are one more than when the send proceeded and one connection-latency
observation is recorded; otherwise it returns false, the held count and the gauge
are unchanged and no connection-latency observation is recorded. -/
theorem acquireDBConnection_outcome_valid (s : State) (customer : GoString) (e : AcqEnv)
    (hvalid : ValidString customer = true) :
    ((acquireDBConnection s customer e).ret = some true ↔
      (s.dbPool < maxDBConnections ∨ e.released = true)) ∧
    (if s.dbPool < maxDBConnections ∨ e.released = true then
      (acquireDBConnection s customer e).ret = some true ∧
        (acquireDBConnection s customer e).state.dbPool =
          (if s.dbPool < maxDBConnections then s.dbPool else s.dbPool - 1) + 1 ∧
        (acquireDBConnection s customer e).state.dbConnections =
          (if s.dbPool < maxDBConnections then s.dbConnections else s.dbConnections - 1) + 1 ∧
        (acquireDBConnection s customer e).events.filter Event.isDbConnectionLatencyObserve =
          [.dbConnectionLatencyObserve customer (Since e.finish e.start)]
    else
      (acquireDBConnection s customer e).ret = some false ∧
        (acquireDBConnection s customer e).state.dbPool = s.dbPool ∧
        (acquireDBConnection s customer e).state.dbConnections = s.dbConnections ∧
        (acquireDBConnection s customer e).events.filter Event.isDbConnectionLatencyObserve =
          []) := by
  have hv : WithLabelValues [customer] = true := by simp [WithLabelValues, hvalid]
  by_cases hfree : s.dbPool < maxDBConnections
  · rw [acquireDBConnection_free s customer e hfree, if_pos hv]
    simp [hfree, Event.isDbConnectionLatencyObserve]
  · cases hrel : e.released with
    | true =>
      rw [acquireDBConnection_released s customer e hfree hrel, if_pos hv]
      simp [hfree, Event.isDbConnectionLatencyObserve]
    | false =>
      rw [acquireDBConnection_timeout s customer e hfree hrel]
      simp [hfree, Event.isDbConnectionLatencyObserve, calculateDBConnectionDelay_dbPool,
        calculateDBConnectionDelay_dbConnections]

set_option maxRecDepth 8000 in
/-- C6, at a tenant that is not valid UTF-8: from the empty pool, where a slot is free,
`acquireDBConnection` sends on `dbPool` and increments the gauge, and then panics in
`dbConnectionLatency.WithLabelValues`: it returns nothing and records no
connection-latency observation, and the slot taken stays held. -/
theorem acquireDBConnection_panics_after_send :
    State.init.dbPool < maxDBConnections ∧ ValidString invalidHeader = false ∧
      acquireDBConnection State.init invalidHeader sampleAcqEnv =
        { ret := none,
          state := { dbPool := 1, lastSpikeTime := sampleTime,
                     currentSpikeCustomer := str "Beta", dbConnections := 1 },
          events := [.sleep (27 * Millisecond), .dbPoolSend, .dbConnectionsInc] } := by
  refine ⟨by decide, by decide, by decide⟩

/-! ## handleRequest on headers that are valid UTF-8 -/

/-- The label made of a header that is valid UTF-8 is valid UTF-8. -/
theorem ValidString_label (x : GoString) (h : ValidString x = true) :
    ValidString (if x = [] then str "unknown" else x) = true := by
  split_ifs
  · decide
  · exact h

/-- After `acquireDBConnection` the pool is not empty (it has taken a slot, or the pool
was full): a release that follows does not block. -/
theorem acquireDBConnection_dbPool_pos (s : State) (customer : GoString) (e : AcqEnv) :
    0 < (acquireDBConnection s customer e).state.dbPool := by
  by_cases hfree : s.dbPool < maxDBConnections
  · rw [acquireDBConnection_dbPool, if_pos hfree]
    omega
  · rw [acquireDBConnection_dbPool, if_neg hfree]
    have hpos : 0 < maxDBConnections := by decide
    omega

/-- The run of `handleRequest` on valid headers when the acquisition fails. -/
theorem handleRequest_timeout (s : State) (r : Request) (e : ReqEnv)
    (hc : ValidString r.xCustomer = true) (ho : ValidString r.xOperation = true)
    (hret : (acquireDBConnection s (if r.xCustomer = [] then str "unknown" else r.xCustomer)
      e.acquire).ret = some false) :
    handleRequest s r e =
      some { panicked := false,
             response := some { status := 503, body := str "Database Connection Timeout\n" },
             state := (acquireDBConnection s
               (if r.xCustomer = [] then str "unknown" else r.xCustomer) e.acquire).state,
             events := (acquireDBConnection s
               (if r.xCustomer = [] then str "unknown" else r.xCustomer) e.acquire).events ++
               [.errorsInc (str "db_connection_timeout")
                 (if r.xCustomer = [] then str "unknown" else r.xCustomer)
                 (if r.xOperation = [] then str "unknown" else r.xOperation)] } := by
  have hc1 := ValidString_label _ hc
  have ho1 := ValidString_label _ ho
  have h0 : ValidString (str "db_connection_timeout") = true := by decide
  unfold handleRequest
  simp only [hret, WithLabelValues, List.all_cons, List.all_nil, hc1, ho1, h0, Bool.and_self,
    if_true, StatusServiceUnavailable]

/-- The run of `handleRequest` on valid headers when a slot is acquired and the draw is
below the constant: the injected internal error. -/
theorem handleRequest_internal_error (s : State) (r : Request) (e : ReqEnv)
    (hc : ValidString r.xCustomer = true) (ho : ValidString r.xOperation = true)
    (hret : (acquireDBConnection s (if r.xCustomer = [] then str "unknown" else r.xCustomer)
      e.acquire).ret = some true)
    (hdraw : e.failure.lt float32_0_05 = true) :
    handleRequest s r e =
      some { panicked := false,
             response := some { status := 500, body := str "Internal Server Error\n" },
             state := { (acquireDBConnection s
               (if r.xCustomer = [] then str "unknown" else r.xCustomer) e.acquire).state with
               dbPool := (acquireDBConnection s
                 (if r.xCustomer = [] then str "unknown" else r.xCustomer)
                 e.acquire).state.dbPool - 1,
               dbConnections := (acquireDBConnection s
                 (if r.xCustomer = [] then str "unknown" else r.xCustomer)
                 e.acquire).state.dbConnections - 1 },
             events := (acquireDBConnection s
               (if r.xCustomer = [] then str "unknown" else r.xCustomer) e.acquire).events ++
               [.sleep (((Intn e.processing 50 : Nat) : Int) * Millisecond),
                .errorsInc (str "internal_server_error")
                  (if r.xCustomer = [] then str "unknown" else r.xCustomer)
                  (if r.xOperation = [] then str "unknown" else r.xOperation),
                .requestsInc (if r.xOperation = [] then str "unknown" else r.xOperation)
                  (str "500") (if r.xCustomer = [] then str "unknown" else r.xCustomer),
                .latencyObserve (if r.xOperation = [] then str "unknown" else r.xOperation)
                  (str "500") (if r.xCustomer = [] then str "unknown" else r.xCustomer)
                  (Since e.finish e.start),
                .dbPoolRecv, .dbConnectionsDec] } := by
  have hc1 := ValidString_label _ hc
  have ho1 := ValidString_label _ ho
  have h0 : ValidString (str "internal_server_error") = true := by decide
  have h5 : ValidString (str (toString (500 : Nat))) = true := by decide
  have h5s : str (toString (500 : Nat)) = str "500" := by decide
  have h5v : ValidString (str "500") = true := by decide
  have hpos := acquireDBConnection_dbPool_pos s
    (if r.xCustomer = [] then str "unknown" else r.xCustomer) e.acquire
  unfold handleRequest releaseDBConnection
  simp only [hret, WithLabelValues, List.all_cons, List.all_nil, hc1, ho1, h0, h5,
    Bool.and_self, Bool.and_true, Bool.true_and, if_true, hdraw, if_pos hpos, h5s, h5v, StatusInternalServerError,
    List.append_assoc, List.cons_append, List.nil_append]

/-- The run of `handleRequest` on valid headers when a slot is acquired and the draw is
not below the constant: success. -/
theorem handleRequest_success (s : State) (r : Request) (e : ReqEnv)
    (hc : ValidString r.xCustomer = true) (ho : ValidString r.xOperation = true)
    (hret : (acquireDBConnection s (if r.xCustomer = [] then str "unknown" else r.xCustomer)
      e.acquire).ret = some true)
    (hdraw : e.failure.lt float32_0_05 = false) :
    handleRequest s r e =
      some { panicked := false,
             response := some {
               status := 200,
               body := (if (if r.xCustomer = [] then str "unknown" else r.xCustomer) ≠
                     str "unknown" ∧
                   (if r.xOperation = [] then str "unknown" else r.xOperation) ≠
                     str "unknown" then
                 str "Hello, " ++ (if r.xCustomer = [] then str "unknown" else r.xCustomer) ++
                   str "! Operation: " ++
                   (if r.xOperation = [] then str "unknown" else r.xOperation)
                 else str "Hello!") },
             state := { (acquireDBConnection s
               (if r.xCustomer = [] then str "unknown" else r.xCustomer) e.acquire).state with
               dbPool := (acquireDBConnection s
                 (if r.xCustomer = [] then str "unknown" else r.xCustomer)
                 e.acquire).state.dbPool - 1,
               dbConnections := (acquireDBConnection s
                 (if r.xCustomer = [] then str "unknown" else r.xCustomer)
                 e.acquire).state.dbConnections - 1 },
             events := (acquireDBConnection s
               (if r.xCustomer = [] then str "unknown" else r.xCustomer) e.acquire).events ++
               [.sleep (((Intn e.processing 50 : Nat) : Int) * Millisecond),
                .requestsInc (if r.xOperation = [] then str "unknown" else r.xOperation)
                  (str "200") (if r.xCustomer = [] then str "unknown" else r.xCustomer),
                .latencyObserve (if r.xOperation = [] then str "unknown" else r.xOperation)
                  (str "200") (if r.xCustomer = [] then str "unknown" else r.xCustomer)
                  (Since e.finish e.start),
                .dbPoolRecv, .dbConnectionsDec] } := by
  have hc1 := ValidString_label _ hc
  have ho1 := ValidString_label _ ho
  have h2 : ValidString (str (toString (200 : Nat))) = true := by decide
  have h2s : str (toString (200 : Nat)) = str "200" := by decide
  have h2v : ValidString (str "200") = true := by decide
  have hpos := acquireDBConnection_dbPool_pos s
    (if r.xCustomer = [] then str "unknown" else r.xCustomer) e.acquire
  unfold handleRequest releaseDBConnection
  simp only [hret, WithLabelValues, List.all_cons, List.all_nil, hc1, ho1, h2,
    Bool.and_self, Bool.and_true, Bool.true_and, if_true, hdraw, if_pos hpos, h2s, h2v, StatusOK,
    List.append_assoc, List.cons_append, List.nil_append, Bool.false_eq_true, if_false]
  by_cases hk : (if r.xCustomer = [] then str "unknown" else r.xCustomer) ≠ str "unknown" ∧
      (if r.xOperation = [] then str "unknown" else r.xOperation) ≠ str "unknown"
  · rw [if_pos hk, if_pos hk]
    simp
  · rw [if_neg hk, if_neg hk]
    simp

/-- The two outcomes of `acquireDBConnection` for a tenant that is valid UTF-8, with
the events of each. -/
theorem acquireDBConnection_cases_valid (s : State) (customer : GoString) (e : AcqEnv)
    (hvalid : ValidString customer = true) :
    ((acquireDBConnection s customer e).ret = some true ∧
      (acquireDBConnection s customer e).events =
        [.sleep (calculateDBConnectionDelay s customer e.delay).1, .dbPoolSend,
          .dbConnectionsInc, .dbConnectionLatencyObserve customer (Since e.finish e.start)]) ∨
    ((acquireDBConnection s customer e).ret = some false ∧
      (acquireDBConnection s customer e).events =
        [.sleep (calculateDBConnectionDelay s customer e.delay).1]) := by
  have hv : WithLabelValues [customer] = true := by simp [WithLabelValues, hvalid]
  by_cases hfree : s.dbPool < maxDBConnections
  · rw [acquireDBConnection_free s customer e hfree, if_pos hv]
    exact Or.inl ⟨rfl, rfl⟩
  · cases hrel : e.released with
    | true =>
      rw [acquireDBConnection_released s customer e hfree hrel, if_pos hv]
      exact Or.inl ⟨rfl, rfl⟩
    | false =>
      rw [acquireDBConnection_timeout s customer e hfree hrel]
      exact Or.inr ⟨rfl, rfl⟩

/-- The metric events of `handleRequest` on headers that are valid UTF-8: the request
counter and the latency histogram are touched once when a slot was acquired and not at
all on the pool-acquisition timeout; the error counter is incremented once exactly when
the status is not 200. -/
theorem handleRequest_metric_counts (s : State) (r : Request) (e : ReqEnv)
    (hc : ValidString r.xCustomer = true) (ho : ValidString r.xOperation = true) :
    ∃ run, handleRequest s r e = some run ∧ run.panicked = false ∧
      run.events.countP Event.isRequestsInc =
        (if (acquireDBConnection s
          (if r.xCustomer = [] then str "unknown" else r.xCustomer) e.acquire).ret = some true then 1 else 0) ∧
      run.events.countP Event.isLatencyObserve =
        (if (acquireDBConnection s
          (if r.xCustomer = [] then str "unknown" else r.xCustomer) e.acquire).ret = some true then 1 else 0) ∧
      run.events.countP Event.isErrorsInc =
        (if run.response.map (fun w => w.status) = some 200 then 0 else 1) := by
  rcases acquireDBConnection_cases_valid s
          (if r.xCustomer = [] then str "unknown" else r.xCustomer) e.acquire (ValidString_label _ hc) with
    ⟨hret, hev⟩ | ⟨hret, hev⟩
  · cases hdraw : e.failure.lt float32_0_05 with
    | true =>
      refine ⟨_, handleRequest_internal_error s r e hc ho hret hdraw, rfl, ?_⟩
      simp [hret, hev, Event.isErrorsInc, Event.isRequestsInc, Event.isLatencyObserve]
    | false =>
      refine ⟨_, handleRequest_success s r e hc ho hret hdraw, rfl, ?_⟩
      simp [hret, hev, Event.isErrorsInc, Event.isRequestsInc, Event.isLatencyObserve]
  · refine ⟨_, handleRequest_timeout s r e hc ho hret, rfl, ?_⟩
    simp [hret, hev, Event.isErrorsInc, Event.isRequestsInc, Event.isLatencyObserve]

/-- The slot of `handleRequest` on headers that are valid UTF-8: the call returns, it
sends on `dbPool` once exactly when the acquisition succeeds, and it receives from
`dbPool` (and decrements the gauge) as often as it sent (and incremented the gauge). -/
theorem handleRequest_releases_slot_valid (s : State) (r : Request) (e : ReqEnv)
    (hc : ValidString r.xCustomer = true) (ho : ValidString r.xOperation = true) :
    ∃ run, handleRequest s r e = some run ∧ run.panicked = false ∧
      run.events.count .dbPoolSend =
        (if (acquireDBConnection s
          (if r.xCustomer = [] then str "unknown" else r.xCustomer) e.acquire).ret = some true then 1 else 0) ∧
      run.events.count .dbPoolRecv = run.events.count .dbPoolSend ∧
      run.events.count .dbConnectionsInc = run.events.count .dbPoolSend ∧
      run.events.count .dbConnectionsDec = run.events.count .dbPoolSend ∧
      run.state.dbPool =
        (acquireDBConnection s
          (if r.xCustomer = [] then str "unknown" else r.xCustomer) e.acquire).state.dbPool - run.events.count .dbPoolSend := by
  rcases acquireDBConnection_cases_valid s
          (if r.xCustomer = [] then str "unknown" else r.xCustomer) e.acquire (ValidString_label _ hc) with
    ⟨hret, hev⟩ | ⟨hret, hev⟩
  · cases hdraw : e.failure.lt float32_0_05 with
    | true =>
      refine ⟨_, handleRequest_internal_error s r e hc ho hret hdraw, rfl, ?_⟩
      simp [hret, hev]
    | false =>
      refine ⟨_, handleRequest_success s r e hc ho hret hdraw, rfl, ?_⟩
      simp [hret, hev]
  · refine ⟨_, handleRequest_timeout s r e hc ho hret, rfl, ?_⟩
    simp [hret, hev]

/-- The outcome of `handleRequest` on headers that are valid UTF-8 and a float32 draw.
When the acquisition fails the status is 503, the one error recorded has cause
`db_connection_timeout`, and the call does nothing after the acquisition but record it;
when the acquisition succeeds and the number drawn is below `5 / 100` the status is 500
and the one error recorded has cause `internal_server_error`; otherwise the status is
200 and no error is recorded.  A recorded error carries the header `X-Customer` and the
header `X-Operation` of the request, `unknown` standing for an empty header. -/
theorem handleRequest_classification_valid (s : State) (r : Request) (e : ReqEnv)
    (hc : ValidString r.xCustomer = true) (ho : ValidString r.xOperation = true)
    (hdraw : e.failure.mant < 2 ^ 24) :
    ∃ run, handleRequest s r e = some run ∧ run.panicked = false ∧
      if (acquireDBConnection s
          (if r.xCustomer = [] then str "unknown" else r.xCustomer) e.acquire).ret = some false then
        run.response.map (fun w => w.status) = some 503 ∧
          run.events.filter Event.isErrorsInc =
            [.errorsInc (str "db_connection_timeout")
          (if r.xCustomer = [] then str "unknown" else r.xCustomer)
              (if r.xOperation = [] then str "unknown" else r.xOperation)] ∧
          run.events = (acquireDBConnection s
          (if r.xCustomer = [] then str "unknown" else r.xCustomer) e.acquire).events ++
            [.errorsInc (str "db_connection_timeout")
          (if r.xCustomer = [] then str "unknown" else r.xCustomer)
              (if r.xOperation = [] then str "unknown" else r.xOperation)]
      else if e.failure.toRat < 5 / 100 then
        run.response.map (fun w => w.status) = some 500 ∧
          run.events.filter Event.isErrorsInc =
            [.errorsInc (str "internal_server_error")
          (if r.xCustomer = [] then str "unknown" else r.xCustomer)
              (if r.xOperation = [] then str "unknown" else r.xOperation)]
      else
        run.response.map (fun w => w.status) = some 200 ∧
          run.events.filter Event.isErrorsInc = [] := by
  rcases acquireDBConnection_cases_valid s
          (if r.xCustomer = [] then str "unknown" else r.xCustomer) e.acquire (ValidString_label _ hc) with
    ⟨hret, hev⟩ | ⟨hret, hev⟩
  · cases hlt : e.failure.lt float32_0_05 with
    | true =>
      have hq : e.failure.toRat < 5 / 100 := (Float32.lt_0_05_iff e.failure hdraw).1 hlt
      refine ⟨_, handleRequest_internal_error s r e hc ho hret hlt, rfl, ?_⟩
      rw [if_neg (by simp [hret]), if_pos hq]
      simp [hev, Event.isErrorsInc]
    | false =>
      have hq : ¬ e.failure.toRat < 5 / 100 := fun h => by
        have := (Float32.lt_0_05_iff e.failure hdraw).2 h
        simp [hlt] at this
      refine ⟨_, handleRequest_success s r e hc ho hret hlt, rfl, ?_⟩
      rw [if_neg (by simp [hret]), if_neg hq]
      simp [hev, Event.isErrorsInc]
  · refine ⟨_, handleRequest_timeout s r e hc ho hret, rfl, ?_⟩
    rw [if_pos hret]
    simp [hev, Event.isErrorsInc]

/-! ## handleRequest at a full pool and on headers that are not valid UTF-8 -/

/-- After `n` acquisitions from a state with room for them the pool holds `n` more slots. -/
theorem runPool_replicate_acquire (n : Nat) (s : State) (customer : GoString) (e : AcqEnv)
    (hroom : s.dbPool + n ≤ maxDBConnections) :
    ∃ s1, runPool s (List.replicate n (.acquire customer e)) = some s1 ∧
      s1.dbPool = s.dbPool + n := by
  induction n generalizing s with
  | zero => exact ⟨s, rfl, rfl⟩
  | succ k ih =>
    have hlt : s.dbPool < maxDBConnections := by omega
    have hstep : (acquireDBConnection s customer e).state.dbPool = s.dbPool + 1 := by
      rw [acquireDBConnection_dbPool, if_pos hlt]
    obtain ⟨s1, h1, h2⟩ := ih (acquireDBConnection s customer e).state (by omega)
    refine ⟨s1, ?_, by omega⟩
    simpa [List.replicate, runPool, poolStep] using h1

/-- The run of `handleRequest` when the acquisition fails and a label of the error
counter is not valid UTF-8: the call panics in `errors.WithLabelValues`, before it
records the error and before it writes the response. -/
theorem handleRequest_timeout_panic (s : State) (r : Request) (e : ReqEnv)
    (hret : (acquireDBConnection s (if r.xCustomer = [] then str "unknown" else r.xCustomer)
      e.acquire).ret = some false)
    (hinv : WithLabelValues [str "db_connection_timeout",
      (if r.xCustomer = [] then str "unknown" else r.xCustomer),
      (if r.xOperation = [] then str "unknown" else r.xOperation)] = false) :
    handleRequest s r e =
      some { panicked := true, response := none,
             state := (acquireDBConnection s
               (if r.xCustomer = [] then str "unknown" else r.xCustomer) e.acquire).state,
             events := (acquireDBConnection s
               (if r.xCustomer = [] then str "unknown" else r.xCustomer) e.acquire).events } := by
  unfold handleRequest
  simp only [hret, hinv, Bool.false_eq_true, if_false]

/-- C1, on the pool-acquisition timeout: with all `maxDBConnections` slots held, a
request is answered 503 and its events hold one increment of the error counter, no
increment of the request counter and no latency observation. -/
theorem handleRequest_timeout_unrecorded :
    ∃ s, runPool State.init fillPool = some s ∧
      (handleRequest s sampleRequest sampleReqEnv).map
        (fun x => (x.response.map (fun w => w.status), x.events.countP Event.isErrorsInc,
          x.events.countP Event.isRequestsInc, x.events.countP Event.isLatencyObserve)) =
        some (some 503, 1, 0, 0) := by
  obtain ⟨s, hrun, hfull⟩ := runPool_replicate_acquire maxDBConnections State.init
    (str "Beta") sampleAcqEnv (by decide)
  refine ⟨s, hrun, ?_⟩
  have hnot : ¬ s.dbPool < maxDBConnections := by
    rw [hfull]
    decide
  have hacq := acquireDBConnection_timeout s
    (if sampleRequest.xCustomer = [] then str "unknown" else sampleRequest.xCustomer)
    sampleReqEnv.acquire hnot rfl
  rw [handleRequest_timeout s sampleRequest sampleReqEnv (by decide) (by decide)
    (by rw [hacq]), hacq]
  simp [Event.isErrorsInc, Event.isRequestsInc, Event.isLatencyObserve]

set_option maxRecDepth 8000 in
/-- C7, at a header `X-Customer` that is not valid UTF-8: from the empty pool,
`handleRequest` ends by the panic of `acquireDBConnection`, raised after the send on
`dbPool` and before `defer releaseDBConnection()` is reached.  Nothing is written, the
call has sent once and never received, and the held count and the gauge are one more
than before the call. -/
theorem handleRequest_leaks_slot :
    (handleRequest State.init invalidCustomerRequest sampleReqEnv).map
      (fun x => (x.panicked, x.response, x.state.dbPool, x.state.dbConnections,
        x.events.count .dbPoolSend, x.events.count .dbPoolRecv)) =
      some (true, none, State.init.dbPool + 1, State.init.dbConnections + 1, 1, 0) := by
  decide

set_option maxRecDepth 8000 in
/-- C9, at a header that is not valid UTF-8.  With all slots held and such a header
`X-Customer`, the acquisition fails and `handleRequest` panics in
`errors.WithLabelValues`: no 503 is written and no error is recorded.  From the empty
pool, with such a header `X-Operation` and the draw `1 / 64`, which is below `0.05`, the
acquisition succeeds and `handleRequest` panics likewise: no 500 is written and no
error is recorded. -/
theorem handleRequest_panics_unclassified :
    (∃ s, runPool State.init fillPool = some s ∧
      (acquireDBConnection s invalidHeader sampleAcqEnv).ret = some false ∧
      (handleRequest s invalidCustomerRequest sampleReqEnv).map
        (fun x => (x.panicked, x.response, x.events.filter Event.isErrorsInc)) =
        some (true, none, [])) ∧
    (acquireDBConnection State.init (str "Beta") sampleAcqEnv).ret = some true ∧
    sampleFailingReqEnv.failure.toRat < 5 / 100 ∧
    (handleRequest State.init invalidOperationRequest sampleFailingReqEnv).map
      (fun x => (x.panicked, x.response, x.events.filter Event.isErrorsInc)) =
      some (true, none, []) := by
  refine ⟨?_, by decide, ?_, by decide⟩
  · obtain ⟨s, hrun, hfull⟩ := runPool_replicate_acquire maxDBConnections State.init
      (str "Beta") sampleAcqEnv (by decide)
    have hnot : ¬ s.dbPool < maxDBConnections := by
      rw [hfull]
      decide
    have hacq := acquireDBConnection_timeout s invalidHeader sampleAcqEnv hnot rfl
    refine ⟨s, hrun, by rw [hacq], ?_⟩
    have hlabel : (if invalidCustomerRequest.xCustomer = [] then str "unknown"
        else invalidCustomerRequest.xCustomer) = invalidHeader := by decide
    rw [handleRequest_timeout_panic s invalidCustomerRequest sampleReqEnv
      (by rw [hlabel]; exact congrArg AcqRun.ret hacq) (by decide)]
    rw [hlabel]
    have hev : (acquireDBConnection s invalidHeader sampleReqEnv.acquire).events =
        [.sleep (calculateDBConnectionDelay s invalidHeader sampleAcqEnv.delay).1] :=
      congrArg AcqRun.events hacq
    simp [hev, Event.isErrorsInc]
  · rw [(Float32.lt_0_05_iff _ (by decide)).symm]
    decide

/-! ## runClient -/

/-- The events of the scheduling loop are selections, made with `ctx.Done()` as the loop
found it, and launches. -/
theorem loopFrom_events (env : Nat → SelectEnv) (ctxDone : Bool) (n i : Nat)
    (l : List ClientEvent) (h : loopFrom env ctxDone i n = some l) :
    ∀ ev ∈ l, (∃ j c, ev = .selected j ctxDone c) ∨ (∃ j, ev = .launch j) := by
  induction n generalizing i l with
  | zero =>
    simp only [loopFrom, Option.some.injEq] at h
    subst h
    intro ev hev
    exact absurd hev (List.not_mem_nil _)
  | succ k ih =>
    unfold loopFrom at h
    cases hsel : selectCase (env i) ctxDone with
    | none => simp [hsel] at h
    | some c =>
      cases hrest : loopFrom env ctxDone (i + 1) k with
      | none => cases c <;> simp [hsel, hrest] at h
      | some l1 =>
        have ih1 := ih (i + 1) l1 hrest
        cases c with
        | tick =>
          simp only [hsel, hrest, Option.map_some', Option.some.injEq] at h
          subst h
          intro ev hev
          simp only [List.mem_cons] at hev
          rcases hev with rfl | rfl | hev
          · exact Or.inl ⟨i, .tick, rfl⟩
          · exact Or.inr ⟨i, rfl⟩
          · exact ih1 ev hev
        | done =>
          simp only [hsel, hrest, Option.map_some', Option.some.injEq] at h
          subst h
          intro ev hev
          simp only [List.mem_cons] at hev
          rcases hev with rfl | hev
          · exact Or.inl ⟨i, .done, rfl⟩
          · exact ih1 ev hev

/-- While a tick is ready at every `select`, the scheduling loop runs to its end. -/
theorem loopFrom_isSome (env : Nat → SelectEnv) (ctxDone : Bool) (n i : Nat)
    (hticks : ∀ j, (env j).tickReady = true) :
    (loopFrom env ctxDone i n).isSome = true := by
  induction n generalizing i with
  | zero => rfl
  | succ k ih =>
    unfold loopFrom
    have hk := ih (i + 1)
    obtain ⟨l, hl⟩ := Option.isSome_iff_exists.1 hk
    have hsel : selectCase (env i) ctxDone = some .tick ∨
        selectCase (env i) ctxDone = some .done := by
      unfold selectCase
      rw [hticks i]
      cases ctxDone <;> simp
    rcases hsel with hsel | hsel <;> simp [hsel, hl]

/-- A list that begins with `l`, cut at an element that is not in `l`, is cut after `l`. -/
theorem append_eq_split_of_not_mem {α : Type} (l t pre post : List α) (x : α)
    (hx : x ∉ l) (h : l ++ t = pre ++ x :: post) : ∃ t1, t = t1 ++ x :: post := by
  induction l generalizing pre with
  | nil => exact ⟨pre, h⟩
  | cons y l1 ih =>
    cases pre with
    | nil =>
      simp only [List.cons_append, List.nil_append, List.cons.injEq] at h
      exact absurd (h.1 ▸ List.mem_cons_self y l1) hx
    | cons z pre1 =>
      simp only [List.cons_append, List.cons.injEq] at h
      exact ih pre1 (fun hm => hx (List.mem_cons_of_mem _ hm)) h.2

/-- C10: in every epoch of `runClient` the cancellation signal is triggered, by the call
`cancel()`; no `select` of the scheduling loop runs with `ctx.Done()` closed; and
no request goroutine is launched after `cancel()`: the events of the epoch that
follow it hold no launch. -/
theorem runEpoch_no_launch_after_cancel (env : Nat → SelectEnv) (tr : List ClientEvent)
    (hrun : runEpoch env = some tr) :
    ClientEvent.cancel ∈ tr ∧
    (∀ i c, ClientEvent.selected i true c ∉ tr) ∧
    (∀ pre post, tr = pre ++ ClientEvent.cancel :: post →
      ∀ ev ∈ post, ev.isLaunch = false) := by
  unfold runEpoch at hrun
  cases hloop : loopFrom env false 0 getRequestsPerSecond with
  | none => simp [hloop] at hrun
  | some l =>
    simp only [hloop, Option.map_some', Option.some.injEq] at hrun
    subst hrun
    have hev := loopFrom_events env false getRequestsPerSecond 0 l hloop
    have hnocancel : ClientEvent.cancel ∉ l := by
      intro hmem
      rcases hev _ hmem with ⟨j, c, h⟩ | ⟨j, h⟩ <;> cases h
    refine ⟨by simp, ?_, ?_⟩
    · intro i c hmem
      simp only [List.mem_append, List.mem_cons, List.mem_singleton, List.not_mem_nil,
        or_false] at hmem
      rcases hmem with hmem | h | h | h
      · rcases hev _ hmem with ⟨j, c1, h⟩ | ⟨j, h⟩ <;> cases h
      · cases h
      · cases h
      · cases h
    · intro pre post heq ev hmem
      obtain ⟨t1, ht1⟩ := append_eq_split_of_not_mem l _ pre post _ hnocancel heq
      have hin : ev ∈ [ClientEvent.tickerStop, ClientEvent.wgWait, ClientEvent.cancel] := by
        rw [ht1]
        exact List.mem_append_right _ (List.mem_cons_of_mem _ hmem)
      simp only [List.mem_cons, List.mem_singleton, List.not_mem_nil, or_false] at hin
      rcases hin with rfl | rfl | rfl <;> rfl

/-! ## Instances at sample inputs -/

set_option maxRecDepth 8000 in
/-- The schedule of C3 at a sample sequence: `sampleCall0` re-arms the window and selects
`Beta`, and the call for `Beta` 20 s later gets a delay of the high band. -/
theorem spike_window_schedule_witness :
    rearms (runCalls State.init []) sampleCall0 ∧
      inSpikeBand (calculateDBConnectionDelay
        (runCalls State.init ([] ++ sampleCall0 :: [sampleCallMid]))
        sampleCall.customer sampleCall.env).1 :=
  ⟨by decide,
   (spike_window_schedule [] [sampleCallMid] sampleCall0 sampleCall (str "Beta")
      (by decide) (by decide) (by decide)).2.1 (by decide) (by decide)⟩

set_option maxRecDepth 8000 in
/-- The bound of C5 at a sample run: two acquisitions and a release leave one slot held. -/
theorem dbPool_within_capacity_witness :
    runPool State.init
        [.acquire (str "Beta") sampleAcqEnv, .acquire (str "Alpha") sampleAcqEnv, .release] =
      some { dbPool := 1, lastSpikeTime := sampleTime, currentSpikeCustomer := str "Beta",
             dbConnections := 1 } ∧
      (1 : Nat) ≤ maxDBConnections :=
  ⟨by rfl,
   (dbPool_within_capacity
      [.acquire (str "Beta") sampleAcqEnv, .acquire (str "Alpha") sampleAcqEnv, .release]
      { dbPool := 1, lastSpikeTime := sampleTime, currentSpikeCustomer := str "Beta",
        dbConnections := 1 } (by rfl)).2.1⟩

set_option maxRecDepth 8000 in
/-- The round trip of C8 at the empty pool: the acquisition for the tenant `Beta` returns
true, and an acquisition and a release leave the pool empty. -/
theorem acquire_release_identity_witness :
    State.init.dbPool < maxDBConnections ∧
      (acquireDBConnection State.init (str "Beta") sampleAcqEnv).ret = some true ∧
      (releaseDBConnection (acquireDBConnection State.init (str "Beta") sampleAcqEnv).state).map
        (fun r => r.1.dbPool) = some 0 :=
  ⟨by decide,
   (acquire_release_identity State.init (str "Beta") sampleAcqEnv (by decide)).1 (by decide),
   (acquire_release_identity State.init (str "Beta") sampleAcqEnv (by decide)).2.1⟩

/-- The epoch of C10 at a sample environment, a tick ready at every `select`: the epoch
runs to its end and its events hold the call `cancel()`. -/
theorem runEpoch_no_launch_after_cancel_witness :
    ∃ tr, runEpoch sampleTicks = some tr ∧ ClientEvent.cancel ∈ tr := by
  have hsome : (runEpoch sampleTicks).isSome = true := by
    unfold runEpoch
    have h := loopFrom_isSome sampleTicks false getRequestsPerSecond 0 (fun _ => rfl)
    obtain ⟨l, hl⟩ := Option.isSome_iff_exists.1 h
    simp [hl]
  obtain ⟨tr, htr⟩ := Option.isSome_iff_exists.1 hsome
  exact ⟨tr, htr, (runEpoch_no_launch_after_cancel sampleTicks tr htr).1⟩

end PromGoDemo
